import Mathlib

/-!
Verification development for the flight-planner pipeline.

The repository has two stages:
* a combination enumerator (nested loops in `main.py`) producing query
  tuples `(origin, destination, outbound_date[, return_date])`;
* two itinerary normalizers (`process_flight_data` in `one_way.py` and
  `process_roundtrip_data` in `round_trip.py`) that flatten a provider
  response document into one flat record per itinerary entry.

JSON documents parsed by `json.load` are embedded as the inductive type
`PyVal` (JSON null becomes Python `None`, here `PyVal.null`).  Python
operations that can raise (`d[k]`, `xs[0]`, `+` on mismatched types,
iteration over a non-iterable) are modelled in the `Option` monad, `none`
standing for a raised exception; `dict.get` with a default is total.
Dates are embedded by their ordinal (`datetime.date` is totally ordered
and the code only ever compares dates).  File and network I/O around the
core (CSV writing, the HTTP fetch) is glue excluded from the model: the
normalizers here take the parsed document and return the row list that
the source turns into a DataFrame.
-/

namespace FlightPlanner

/-- Embedding of a parsed JSON value as the Python value `json.load` yields:
`null` is Python `None`, objects are dicts with string keys (association
list, keys unique by construction in a parsed document). -/
inductive PyVal where
  | null
  | bool (b : Bool)
  | num (n : Int)
  | str (s : String)
  | list (xs : List PyVal)
  | obj (fields : List (String × PyVal))

/-- Top-level response document: the dict `json.load` returns. -/
abbrev Doc := List (String × PyVal)

/-- Python `v.keys()`-style view used by `asObj`: a value is a dict, or not. -/
def asObj : PyVal → Option (List (String × PyVal))
  | .obj fields => some fields
  | _ => Option.none

/-- Python hard subscript `v[k]` with a string key: succeeds only on a dict
that has the key (otherwise `TypeError`/`KeyError`, modelled as `none`). -/
def pySubS (v : PyVal) (k : String) : Option PyVal :=
  match v with
  | .obj fields => fields.lookup k
  | _ => Option.none

/-- Python hard subscript `v[0]`: head of a list, first character of a
non-empty string, otherwise an exception. -/
def pyIdxZero : PyVal → Option PyVal
  | .list (x :: _) => some x
  | .str s => if s.isEmpty then Option.none else some (.str (s.take 1))
  | _ => Option.none

/-- Python `a + b` on the values the pipeline concatenates: list + list and
str + str succeed, every other combination raises `TypeError`. -/
def pyConcat : PyVal → PyVal → Option PyVal
  | .list xs, .list ys => some (.list (xs ++ ys))
  | .str a, .str b => some (.str (a ++ b))
  | _, _ => Option.none

/-- Python `for x in v`: a list yields its elements, a string its
characters (as 1-character strings), a dict its keys; other values raise. -/
def pyIterate : PyVal → Option (List PyVal)
  | .list xs => some xs
  | .str s => some (s.toList.map fun c => .str (String.mk [c]))
  | .obj fields => some (fields.map fun kv => .str kv.1)
  | _ => Option.none

/-- Python `d.get(k, default)` on a dict given by its fields. -/
def dictGet (fields : List (String × PyVal)) (k : String) (dflt : PyVal) : PyVal :=
  (fields.lookup k).getD dflt

/-- Soft lookup used in claim statements: the value bound to key `k` when
`v` is a dict containing `k`, `none` when the key is absent. -/
def getKey : PyVal → String → Option PyVal
  | .obj fields, k => fields.lookup k
  | _, _ => Option.none

/-- Python `d[k] = v` on a dict: replace the value of an existing key in
place, or append the binding at the end. -/
def setKey : Doc → String → PyVal → Doc
  | [], k, v => [(k, v)]
  | (k1, v1) :: rest, k, v =>
      if k1 = k then (k, v) :: rest else (k1, v1) :: setKey rest k v

/-- Embedding of `entry["flights"][0]` (one_way.py line 46, round_trip.py
line 56): the first flight segment of an itinerary entry. -/
def firstSeg (entry : PyVal) : Option PyVal :=
  (pySubS entry "flights").bind pyIdxZero

/-- Shared hard-access core of the two row builders: everything a row
needs from an entry whose extraction can raise, plus the field lists of
the entry and its first segment for the `.get` calls. -/
structure EntryParts where
  eF : List (String × PyVal)
  sF : List (String × PyVal)
  depId : PyVal
  depName : PyVal
  depTime : PyVal
  arrId : PyVal
  arrName : PyVal
  arrTime : PyVal

/-- Hard accesses both row builders perform on one itinerary entry, in the
order the Python dict literal evaluates them: `entry["flights"][0]`, the
`.get` calls on the segment (which require the segment to be a dict), and
`seg["departure_airport"]["id"|"name"|"time"]`, likewise for
`arrival_airport`.  Any miss raises, failing the whole entry. -/
def entryParts (entry : PyVal) : Option EntryParts :=
  (firstSeg entry).bind fun seg =>
  (asObj seg).bind fun sF =>
  (asObj entry).bind fun eF =>
  (pySubS seg "departure_airport").bind fun dep =>
  (pySubS dep "id").bind fun depId =>
  (pySubS dep "name").bind fun depName =>
  (pySubS dep "time").bind fun depTime =>
  (pySubS seg "arrival_airport").bind fun arr =>
  (pySubS arr "id").bind fun arrId =>
  (pySubS arr "name").bind fun arrName =>
  (pySubS arr "time").map fun arrTime =>
  ⟨eF, sF, depId, depName, depTime, arrId, arrName, arrTime⟩

/-- One-way flat record: the dict appended per entry in
`process_flight_data` (one_way.py lines 47-62), fields in source order. -/
structure OneWayRow where
  flight_number : PyVal
  airline : PyVal
  airplane : PyVal
  travel_class : PyVal
  legroom : PyVal
  departure_airport_id : PyVal
  departure_airport_name : PyVal
  departure_time : PyVal
  arrival_airport_id : PyVal
  arrival_airport_name : PyVal
  arrival_time : PyVal
  duration_min : PyVal
  price_usd : PyVal
  booking_token : PyVal

/-- Round-trip flat record: the dict appended per entry in
`process_roundtrip_data` (round_trip.py lines 57-74), fields in source
order. -/
structure RoundTripRow where
  flight_number : PyVal
  airline : PyVal
  airplane : PyVal
  travel_class : PyVal
  legroom : PyVal
  departure_airport_id : PyVal
  departure_airport_name : PyVal
  departure_time : PyVal
  arrival_airport_id : PyVal
  arrival_airport_name : PyVal
  arrival_time : PyVal
  total_duration_min : PyVal
  price_usd : PyVal
  trip_type : PyVal
  departure_token : PyVal
  fetched_at : PyVal

/-- Row built for one entry by `process_flight_data` (one_way.py lines
46-62).  `duration_min` is `entry.get("total_duration", seg.get("duration"))`. -/
def rowOneWay (entry : PyVal) : Option OneWayRow :=
  (entryParts entry).map fun p =>
    { flight_number := dictGet p.sF "flight_number" .null
      airline := dictGet p.sF "airline" .null
      airplane := dictGet p.sF "airplane" (.str "")
      travel_class := dictGet p.sF "travel_class" (.str "")
      legroom := dictGet p.sF "legroom" (.str "")
      departure_airport_id := p.depId
      departure_airport_name := p.depName
      departure_time := p.depTime
      arrival_airport_id := p.arrId
      arrival_airport_name := p.arrName
      arrival_time := p.arrTime
      duration_min := dictGet p.eF "total_duration" (dictGet p.sF "duration" .null)
      price_usd := dictGet p.eF "price" .null
      booking_token := dictGet p.eF "booking_token" .null }

/-- Row built for one entry by `process_roundtrip_data` (round_trip.py
lines 56-74).  `total_duration_min` is `entry.get("total_duration")`, with
no segment fallback; `fetched_at` is the document-level value `fa`. -/
def rowRoundTrip (fa : PyVal) (entry : PyVal) : Option RoundTripRow :=
  (entryParts entry).map fun p =>
    { flight_number := dictGet p.sF "flight_number" .null
      airline := dictGet p.sF "airline" .null
      airplane := dictGet p.sF "airplane" (.str "")
      travel_class := dictGet p.sF "travel_class" (.str "")
      legroom := dictGet p.sF "legroom" (.str "")
      departure_airport_id := p.depId
      departure_airport_name := p.depName
      departure_time := p.depTime
      arrival_airport_id := p.arrId
      arrival_airport_name := p.arrName
      arrival_time := p.arrTime
      total_duration_min := dictGet p.eF "total_duration" .null
      price_usd := dictGet p.eF "price" .null
      trip_type := dictGet p.eF "type" .null
      departure_token := dictGet p.eF "departure_token" .null
      fetched_at := fa }

/-- Left-to-right traversal of the per-entry loop: the first entry whose
row raises aborts the whole run with nothing emitted. -/
def optTraverse (f : α → Option β) : List α → Option (List β)
  | [] => some []
  | x :: xs => do
      let y ← f x
      let ys ← optTraverse f xs
      pure (y :: ys)

/-- Embedding of `process_flight_data` (one_way.py lines 33-67) on the
parsed document: `data.get("best_flights", []) + data.get("other_flights", [])`
then one row per entry; the returned list is the DataFrame row set. -/
def process_flight_data (doc : Doc) : Option (List OneWayRow) :=
  (pyConcat ((doc.lookup "best_flights").getD (.list []))
      ((doc.lookup "other_flights").getD (.list []))).bind fun all =>
  (pyIterate all).bind fun entries =>
  optTraverse rowOneWay entries

/-- Embedding of `fetched_at = data.get("_fetched_at", "")` (round_trip.py
line 52). -/
def fetchedAtOf (doc : Doc) : PyVal :=
  (doc.lookup "_fetched_at").getD (.str "")

/-- Embedding of `process_roundtrip_data` (round_trip.py lines 42-79) on
the parsed document. -/
def process_roundtrip_data (doc : Doc) : Option (List RoundTripRow) :=
  (pyConcat ((doc.lookup "best_flights").getD (.list []))
      ((doc.lookup "other_flights").getD (.list []))).bind fun all =>
  (pyIterate all).bind fun entries =>
  optTraverse (rowRoundTrip (fetchedAtOf doc)) entries

/-- Embedding of the timestamp injection in `fetch_roundtrip_data_raw`
(round_trip.py lines 33-34): `results["_fetched_at"] = fetched_at`. -/
def injectFetchedAt (results : Doc) (fetched_at : String) : Doc :=
  setKey results "_fetched_at" (.str fetched_at)

/-- Dates are compared and nothing else; a `datetime.date` is embedded by
its ordinal. -/
abbrev FlightDate := Nat

/-- One-way query tuples `(origin, destination, outbound_date)` in the
order the loops of `main.py` lines 50-68 emit them: origin outer,
destination next, outbound date inner; self-pairs are skipped inline. -/
def oneWayQueryTuples (cities : List String) (departs : List FlightDate) :
    List (String × String × FlightDate) :=
  cities.flatMap fun o =>
    cities.flatMap fun d =>
      if o = d then []
      else departs.map fun dd => (o, d, dd)

/-- Round-trip query tuples `(origin, destination, outbound_date,
return_date)` in the order the loops of `main.py` lines 72-94 emit them;
self-pairs and pairs with `return_date <= depart_date` are skipped inline. -/
def roundTripQueryTuples (cities : List String) (departs rets : List FlightDate) :
    List (String × String × FlightDate × FlightDate) :=
  cities.flatMap fun o =>
    cities.flatMap fun d =>
      if o = d then []
      else departs.flatMap fun dd =>
        rets.filterMap fun rd =>
          if rd ≤ dd then Option.none else some (o, d, dd, rd)

/-- Reference definition following the spec's words in section 4.1: the
full Cartesian product `cities × cities × outbound_dates × return_dates`
in the spec's nesting order (origin outermost, destination next, outbound
date next, return date innermost), before any filtering. -/
def cartesianNesting (cities : List String) (departs rets : List FlightDate) :
    List (String × String × FlightDate × FlightDate) :=
  cities.product (cities.product (departs.product rets))

/-- The two inline filters of the round-trip loops as one predicate on a
candidate tuple: keep it when origin and destination differ and the
return date is strictly after the outbound date. -/
def tupleKeep (t : String × String × FlightDate × FlightDate) : Bool :=
  decide (t.1 ≠ t.2.1) && decide (t.2.2.1 < t.2.2.2)

/-- Structural defect of an itinerary entry as the failure mode in spec
section 4.2 describes it: the entry lacks a usable flight-segment
sequence, or its first segment lacks the `departure_airport` or
`arrival_airport` structure, or one of their `id`/`name`/`time`
sub-fields is missing. -/
def entryStructBad (entry : PyVal) : Bool :=
  match firstSeg entry with
  | Option.none => true
  | some seg =>
    match pySubS seg "departure_airport", pySubS seg "arrival_airport" with
    | some dep, some arr =>
        (pySubS dep "id").isNone || (pySubS dep "name").isNone ||
        (pySubS dep "time").isNone || (pySubS arr "id").isNone ||
        (pySubS arr "name").isNone || (pySubS arr "time").isNone
    | _, _ => true

/-! Sample documents used by the witness theorems, shaped like the
provider's `google_flights` payloads. -/

/-- Sample departure airport reference with all three required fields. -/
def apDEL : PyVal := .obj [("id", .str "DEL"),
  ("name", .str "Indira Gandhi International Airport"),
  ("time", .str "2025-03-01 08:00")]

/-- Sample arrival airport reference with all three required fields. -/
def apBOM : PyVal := .obj [("id", .str "BOM"),
  ("name", .str "Chhatrapati Shivaji International Airport"),
  ("time", .str "2025-03-01 10:05")]

/-- Sample flight segment with complete airport references and its own
`duration` of 125 minutes. -/
def segAB : PyVal := .obj [("flight_number", .str "AI 805"),
  ("airline", .str "Air India"),
  ("departure_airport", apDEL), ("arrival_airport", apBOM),
  ("duration", .num 125)]

/-- Sample entry A: entry-level `total_duration` present (95). -/
def entryA : PyVal := .obj [("flights", .list [segAB]),
  ("total_duration", .num 95), ("price", .num 120),
  ("booking_token", .str "tokA")]

/-- Sample entry B: `total_duration` absent, first segment duration 125. -/
def entryB : PyVal := .obj [("flights", .list [segAB]), ("price", .num 110)]

/-- Sample entry C: a third well-formed entry. -/
def entryC : PyVal := .obj [("flights", .list [segAB]),
  ("total_duration", .num 140), ("type", .str "Round trip"),
  ("departure_token", .str "depC")]

/-- Sample document with `best_flights = [A, B]` and `other_flights = [C]`. -/
def docABC : Doc := [("best_flights", .list [entryA, entryB]),
  ("other_flights", .list [entryC])]

/-- Airport reference missing its `time` sub-field. -/
def apNoTime : PyVal := .obj [("id", .str "DEL"), ("name", .str "Delhi")]

/-- Segment whose departure airport lacks `time`. -/
def segBad : PyVal := .obj [("departure_airport", apNoTime),
  ("arrival_airport", apBOM)]

/-- Entry containing the defective segment. -/
def entryBad : PyVal := .obj [("flights", .list [segBad])]

/-- Document with a valid entry followed by the defective entry. -/
def docBad : Doc := [("best_flights", .list [entryA]),
  ("other_flights", .list [entryBad])]

/-- Entry whose `total_duration` key is present but bound to null,
while its first segment carries a duration of 125. -/
def entryNull : PyVal := .obj [("flights", .list [segAB]),
  ("total_duration", .null)]

/-- Document with `best_flights` absent and one entry in `other_flights`. -/
def docOther : Doc := [("other_flights", .list [entryC])]

/-- Document with both entry lists absent. -/
def docEmpty : Doc := [("search_metadata", .obj [])]

/-- All-null one-way row used only as a `getD` fallback below. -/
def dummyOneWayRow : OneWayRow :=
  ⟨.null, .null, .null, .null, .null, .null, .null, .null, .null, .null,
   .null, .null, .null, .null⟩

/-- All-null round-trip row used only as a `getD` fallback below. -/
def dummyRoundTripRow : RoundTripRow :=
  ⟨.null, .null, .null, .null, .null, .null, .null, .null, .null, .null,
   .null, .null, .null, .null, .null, .null⟩

/-- The one-way row the normalizer builds for entry B. -/
def rowB : OneWayRow := (rowOneWay entryB).getD dummyOneWayRow

/-- The round-trip row the normalizer builds for entry B under an empty
document timestamp. -/
def rtRowB : RoundTripRow :=
  (rowRoundTrip (.str "") entryB).getD dummyRoundTripRow

/-- The one-way row the normalizer builds for the null-duration entry. -/
def rowNull : OneWayRow := (rowOneWay entryNull).getD dummyOneWayRow

/-- Timestamp string used by the C9 witness. -/
def tsW : String := "2025-03-01T12:00:00"

/-- Rows produced from `docABC` after injecting the C9 timestamp. -/
def rtRowsW : List RoundTripRow :=
  (process_roundtrip_data (injectFetchedAt docABC tsW)).getD []

/-- First row of `rtRowsW`. -/
def rtRowW0 : RoundTripRow := rtRowsW.headD dummyRoundTripRow

end FlightPlanner

namespace FlightPlanner

/-! Helper lemmas. -/

theorem optTraverse_length (f : α → Option β) :
    ∀ l ys, optTraverse f l = some ys → ys.length = l.length := by
  intro l
  induction l with
  | nil =>
      intro ys h
      simp [optTraverse] at h
      simp [← h]
  | cons x xs ih =>
      intro ys h
      cases hfx : f x with
      | none => simp [optTraverse, hfx] at h
      | some y =>
          cases htr : optTraverse f xs with
          | none => simp [optTraverse, hfx, htr] at h
          | some zs =>
              simp [optTraverse, hfx, htr] at h
              simp [← h, ih zs htr]

theorem optTraverse_none_of_mem (f : α → Option β) {l : List α} {x : α}
    (hx : x ∈ l) (hfx : f x = Option.none) :
    optTraverse f l = Option.none := by
  induction l with
  | nil => cases hx
  | cons a t ih =>
      cases hx with
      | head => simp [optTraverse, hfx]
      | tail _ h =>
          cases hfa : f a with
          | none => simp [optTraverse, hfa]
          | some y => simp [optTraverse, hfa, ih h]

theorem optTraverse_mem (f : α → Option β) :
    ∀ l ys, optTraverse f l = some ys → ∀ y ∈ ys, ∃ x ∈ l, f x = some y := by
  intro l
  induction l with
  | nil =>
      intro ys h y hy
      simp [optTraverse] at h
      subst h
      simp at hy
  | cons a t ih =>
      intro ys h y hy
      cases hfa : f a with
      | none => simp [optTraverse, hfa] at h
      | some z =>
          cases htr : optTraverse f t with
          | none => simp [optTraverse, hfa, htr] at h
          | some zs =>
              simp [optTraverse, hfa, htr] at h
              rw [← h] at hy
              cases hy with
              | head => exact ⟨a, List.mem_cons_self a t, hfa⟩
              | tail _ hy2 =>
                  obtain ⟨x, hx, hfx⟩ := ih zs htr y hy2
                  exact ⟨x, List.mem_cons_of_mem a hx, hfx⟩

theorem process_eq_concat (doc : Doc) (bs os : List PyVal)
    (hb : (doc.lookup "best_flights").getD (.list []) = .list bs)
    (ho : (doc.lookup "other_flights").getD (.list []) = .list os) :
    process_flight_data doc = optTraverse rowOneWay (bs ++ os) ∧
    process_roundtrip_data doc =
      optTraverse (rowRoundTrip (fetchedAtOf doc)) (bs ++ os) := by
  constructor <;>
    simp [process_flight_data, process_roundtrip_data, hb, ho, pyConcat, pyIterate]

/-- C1: the normalizers (one-way and round-trip) emit exactly one flat
record per itinerary entry of `best_flights ++ other_flights`, in that
order, with no re-sorting and no deduplication, and any successful output
has length equal to the total number of entries.  The output is the value
of a left-to-right traversal (`optTraverse`) of the concatenated entry
list, which is the per-entry loop of the source; a Lean `List` is finite
and restartable by construction (laziness is an operational property the
value-level model does not distinguish). -/
theorem claim1_one_record_per_entry (doc : Doc) (bs os : List PyVal)
    (hb : doc.lookup "best_flights" = some (.list bs))
    (ho : doc.lookup "other_flights" = some (.list os)) :
    process_flight_data doc = optTraverse rowOneWay (bs ++ os) ∧
    process_roundtrip_data doc =
      optTraverse (rowRoundTrip (fetchedAtOf doc)) (bs ++ os) ∧
    (∀ rows, process_flight_data doc = some rows →
      rows.length = bs.length + os.length) ∧
    (∀ rows, process_roundtrip_data doc = some rows →
      rows.length = bs.length + os.length) := by
  obtain ⟨h1, h2⟩ := process_eq_concat doc bs os (by simp [hb]) (by simp [ho])
  refine ⟨h1, h2, ?_, ?_⟩
  · intro rows hrows
    rw [h1] at hrows
    have := optTraverse_length rowOneWay (bs ++ os) rows hrows
    simpa using this
  · intro rows hrows
    rw [h2] at hrows
    have := optTraverse_length (rowRoundTrip (fetchedAtOf doc)) (bs ++ os) rows hrows
    simpa using this

/-- Witness for C1 on the spec's example document
(`best_flights = [A, B]`, `other_flights = [C]`). -/
theorem claim1_one_record_per_entry_witness :
    process_flight_data docABC = optTraverse rowOneWay [entryA, entryB, entryC] ∧
    process_roundtrip_data docABC =
      optTraverse (rowRoundTrip (fetchedAtOf docABC)) [entryA, entryB, entryC] :=
  ⟨(claim1_one_record_per_entry docABC [entryA, entryB] [entryC] rfl rfl).1,
   (claim1_one_record_per_entry docABC [entryA, entryB] [entryC] rfl rfl).2.1⟩

/-- C8: a document missing `best_flights`, `other_flights`, or both is
normalized with each missing key treated as the empty list: the records
of the remaining entries are produced, an empty record list when both
are missing, and the missing keys raise no error. -/
theorem claim8_missing_keys_as_empty (doc : Doc) :
    (doc.lookup "best_flights" = Option.none →
      doc.lookup "other_flights" = Option.none →
      process_flight_data doc = some [] ∧
      process_roundtrip_data doc = some []) ∧
    (∀ os, doc.lookup "best_flights" = Option.none →
      doc.lookup "other_flights" = some (.list os) →
      process_flight_data doc = optTraverse rowOneWay os ∧
      process_roundtrip_data doc =
        optTraverse (rowRoundTrip (fetchedAtOf doc)) os) ∧
    (∀ bs, doc.lookup "best_flights" = some (.list bs) →
      doc.lookup "other_flights" = Option.none →
      process_flight_data doc = optTraverse rowOneWay bs ∧
      process_roundtrip_data doc =
        optTraverse (rowRoundTrip (fetchedAtOf doc)) bs) := by
  refine ⟨?_, ?_, ?_⟩
  · intro hb ho
    have := process_eq_concat doc [] [] (by simp [hb]) (by simp [ho])
    simpa [optTraverse] using this
  · intro os hb ho
    have := process_eq_concat doc [] os (by simp [hb]) (by simp [ho])
    simpa using this
  · intro bs hb ho
    have := process_eq_concat doc bs [] (by simp [hb]) (by simp [ho])
    simpa using this

/-- Witness for C8: a document with only `other_flights` yields that
list's records, and a document with neither key yields the empty record
list without error. -/
theorem claim8_missing_keys_as_empty_witness :
    (process_flight_data docOther = optTraverse rowOneWay [entryC] ∧
     process_roundtrip_data docOther =
       optTraverse (rowRoundTrip (fetchedAtOf docOther)) [entryC]) ∧
    (process_flight_data docEmpty = some [] ∧
     process_roundtrip_data docEmpty = some []) :=
  ⟨(claim8_missing_keys_as_empty docOther).2.1 [entryC] rfl rfl,
   (claim8_missing_keys_as_empty docEmpty).1 rfl rfl⟩

theorem asObj_some {v : PyVal} {fs : List (String × PyVal)}
    (h : asObj v = some fs) : v = .obj fs := by
  cases v <;> simp_all [asObj]

theorem entryParts_of_bad (entry : PyVal) (hbad : entryStructBad entry = true) :
    entryParts entry = Option.none := by
  unfold entryStructBad at hbad
  unfold entryParts
  cases h1 : firstSeg entry with
  | none => simp only [Option.none_bind]
  | some seg =>
      rw [h1] at hbad
      simp only [Option.some_bind]
      cases h2 : asObj seg with
      | none => simp only [Option.none_bind]
      | some sF =>
          simp only [Option.some_bind]
          cases h3 : asObj entry with
          | none => simp only [Option.none_bind]
          | some eF =>
              simp only [Option.some_bind]
              cases h4 : pySubS seg "departure_airport" with
              | none => simp only [Option.none_bind]
              | some dep =>
                  simp only [Option.some_bind]
                  cases h5 : pySubS dep "id" with
                  | none => simp only [Option.none_bind]
                  | some depId =>
                      simp only [Option.some_bind]
                      cases h6 : pySubS dep "name" with
                      | none => simp only [Option.none_bind]
                      | some depName =>
                          simp only [Option.some_bind]
                          cases h7 : pySubS dep "time" with
                          | none => simp only [Option.none_bind]
                          | some depTime =>
                              simp only [Option.some_bind]
                              cases h8 : pySubS seg "arrival_airport" with
                              | none => simp only [Option.none_bind]
                              | some arr =>
                                  simp only [Option.some_bind]
                                  cases h9 : pySubS arr "id" with
                                  | none => simp only [Option.none_bind]
                                  | some arrId =>
                                      simp only [Option.some_bind]
                                      cases h10 : pySubS arr "name" with
                                      | none => simp only [Option.none_bind]
                                      | some arrName =>
                                          simp only [Option.some_bind]
                                          cases h11 : pySubS arr "time" with
                                          | none => simp only [Option.map_none']
                                          | some arrTime =>
                                              simp [h4, h8, h5, h6, h7, h9, h10,
                                                h11] at hbad

theorem entryParts_inv (entry : PyVal) (p : EntryParts)
    (h : entryParts entry = some p) :
    entry = .obj p.eF ∧ ∃ seg, firstSeg entry = some seg ∧ seg = .obj p.sF := by
  unfold entryParts at h
  cases h1 : firstSeg entry with
  | none => rw [h1, Option.none_bind] at h; exact Option.noConfusion h
  | some seg =>
      rw [h1, Option.some_bind] at h
      cases h2 : asObj seg with
      | none => rw [h2, Option.none_bind] at h; exact Option.noConfusion h
      | some sF =>
          rw [h2, Option.some_bind] at h
          cases h3 : asObj entry with
          | none => rw [h3, Option.none_bind] at h; exact Option.noConfusion h
          | some eF =>
              rw [h3, Option.some_bind] at h
              cases h4 : pySubS seg "departure_airport" with
              | none => rw [h4, Option.none_bind] at h; exact Option.noConfusion h
              | some dep =>
                  rw [h4, Option.some_bind] at h
                  cases h5 : pySubS dep "id" with
                  | none => rw [h5, Option.none_bind] at h; exact Option.noConfusion h
                  | some depId =>
                      rw [h5, Option.some_bind] at h
                      cases h6 : pySubS dep "name" with
                      | none => rw [h6, Option.none_bind] at h; exact Option.noConfusion h
                      | some depName =>
                          rw [h6, Option.some_bind] at h
                          cases h7 : pySubS dep "time" with
                          | none => rw [h7, Option.none_bind] at h; exact Option.noConfusion h
                          | some depTime =>
                              rw [h7, Option.some_bind] at h
                              cases h8 : pySubS seg "arrival_airport" with
                              | none =>
                                  rw [h8, Option.none_bind] at h
                                  exact Option.noConfusion h
                              | some arr =>
                                  rw [h8, Option.some_bind] at h
                                  cases h9 : pySubS arr "id" with
                                  | none =>
                                      rw [h9, Option.none_bind] at h
                                      exact Option.noConfusion h
                                  | some arrId =>
                                      rw [h9, Option.some_bind] at h
                                      cases h10 : pySubS arr "name" with
                                      | none =>
                                          rw [h10, Option.none_bind] at h
                                          exact Option.noConfusion h
                                      | some arrName =>
                                          rw [h10, Option.some_bind] at h
                                          cases h11 : pySubS arr "time" with
                                          | none =>
                                              rw [h11, Option.map_none'] at h
                                              exact Option.noConfusion h
                                          | some arrTime =>
                                              rw [h11, Option.map_some'] at h
                                              obtain rfl := Option.some.inj h
                                              exact ⟨asObj_some h3, seg, rfl, asObj_some h2⟩

theorem rowOneWay_duration (entry : PyVal) (row : OneWayRow)
    (hrow : rowOneWay entry = some row) :
    ∃ p, entryParts entry = some p ∧
      row.duration_min = dictGet p.eF "total_duration" (dictGet p.sF "duration" PyVal.null) := by
  unfold rowOneWay at hrow
  cases hp : entryParts entry with
  | none => rw [hp, Option.map_none'] at hrow; exact Option.noConfusion hrow
  | some p =>
      rw [hp, Option.map_some'] at hrow
      obtain rfl := Option.some.inj hrow
      exact ⟨p, rfl, rfl⟩

theorem rowRoundTrip_fields (fa entry : PyVal) (row : RoundTripRow)
    (hrow : rowRoundTrip fa entry = some row) :
    ∃ p, entryParts entry = some p ∧
      row.total_duration_min = dictGet p.eF "total_duration" PyVal.null ∧
      row.fetched_at = fa := by
  unfold rowRoundTrip at hrow
  cases hp : entryParts entry with
  | none => rw [hp, Option.map_none'] at hrow; exact Option.noConfusion hrow
  | some p =>
      rw [hp, Option.map_some'] at hrow
      obtain rfl := Option.some.inj hrow
      exact ⟨p, rfl, rfl, rfl⟩

/-- C2: an entry that lacks a usable flight-segment sequence, or whose
first segment lacks `departure_airport`/`arrival_airport` or one of their
`id`/`name`/`time` sub-fields, makes normalization of the whole document
fail: the result is `none` (the raised exception), not some prefix of
records for the preceding valid entries, for both normalizers. -/
theorem claim2_structural_failure (doc : Doc) (bs os : List PyVal) (entry : PyVal)
    (hb : doc.lookup "best_flights" = some (.list bs))
    (ho : doc.lookup "other_flights" = some (.list os))
    (hmem : entry ∈ bs ++ os)
    (hbad : entryStructBad entry = true) :
    process_flight_data doc = Option.none ∧
    process_roundtrip_data doc = Option.none := by
  obtain ⟨h1, h2⟩ := process_eq_concat doc bs os (by simp [hb]) (by simp [ho])
  have hparts := entryParts_of_bad entry hbad
  have hrow1 : rowOneWay entry = Option.none := by
    unfold rowOneWay; rw [hparts, Option.map_none']
  have hrow2 : rowRoundTrip (fetchedAtOf doc) entry = Option.none := by
    unfold rowRoundTrip; rw [hparts, Option.map_none']
  exact ⟨h1.trans (optTraverse_none_of_mem _ hmem hrow1),
         h2.trans (optTraverse_none_of_mem _ hmem hrow2)⟩

/-- Witness for C2: a document whose second entry has a segment missing
`departure_airport.time`, preceded by a valid entry, normalizes to `none`
with no partial records. -/
theorem claim2_structural_failure_witness :
    process_flight_data docBad = Option.none ∧
    process_roundtrip_data docBad = Option.none :=
  claim2_structural_failure docBad [entryA] [entryBad] entryBad rfl rfl
    (List.Mem.tail _ (List.Mem.head _)) rfl

/-- C3: for a one-way entry, `duration_min` is the entry-level
`total_duration` when that key is present (whatever its value), else the
first segment's own `duration` when present, and null when both are
absent — rendered as an empty cell in the CSV, never a synthetic zero. -/
theorem claim3_duration_oneway (entry seg : PyVal) (row : OneWayRow)
    (hrow : rowOneWay entry = some row) (hseg : firstSeg entry = some seg) :
    (∀ v, getKey entry "total_duration" = some v → row.duration_min = v) ∧
    (getKey entry "total_duration" = Option.none →
      (∀ d, getKey seg "duration" = some d → row.duration_min = d) ∧
      (getKey seg "duration" = Option.none → row.duration_min = PyVal.null)) := by
  obtain ⟨p, hp, hdur⟩ := rowOneWay_duration entry row hrow
  obtain ⟨heF, seg0, hseg0, hsF0⟩ := entryParts_inv entry p hp
  obtain rfl : seg0 = seg := Option.some.inj (hseg0.symm.trans hseg)
  constructor
  · intro v hv
    rw [heF] at hv
    simp only [getKey] at hv
    rw [hdur]
    simp [dictGet, hv]
  · intro habs
    rw [heF] at habs
    simp only [getKey] at habs
    constructor
    · intro d hd
      rw [hsF0] at hd
      simp only [getKey] at hd
      rw [hdur]
      simp [dictGet, habs, hd]
    · intro hnone
      rw [hsF0] at hnone
      simp only [getKey] at hnone
      rw [hdur]
      simp [dictGet, habs, hnone]

/-- Witness for C3 on the spec's example: `total_duration` absent and
first-segment `duration = 125` gives `duration_min = 125`. -/
theorem claim3_duration_oneway_witness : rowB.duration_min = PyVal.num 125 :=
  ((claim3_duration_oneway entryB segAB rowB rfl rfl).2 rfl).1 (PyVal.num 125) rfl

/-- C4: for a round-trip entry whose entry-level `total_duration` is
absent, `total_duration_min` is null (absent in the CSV) even when the
first segment carries its own `duration`; the one-way normalizer run on
the same entry would fall back to that segment duration, so the asymmetry
is real. -/
theorem claim4_roundtrip_no_fallback (fa entry seg : PyVal) (row : RoundTripRow)
    (d : PyVal)
    (hrow : rowRoundTrip fa entry = some row) (hseg : firstSeg entry = some seg)
    (habs : getKey entry "total_duration" = Option.none)
    (hd : getKey seg "duration" = some d) :
    row.total_duration_min = PyVal.null ∧
    (∀ r1, rowOneWay entry = some r1 → r1.duration_min = d) := by
  obtain ⟨p, hp, htd, _⟩ := rowRoundTrip_fields fa entry row hrow
  obtain ⟨heF, seg0, hseg0, hsF0⟩ := entryParts_inv entry p hp
  obtain rfl : seg0 = seg := Option.some.inj (hseg0.symm.trans hseg)
  rw [heF] at habs
  simp only [getKey] at habs
  rw [hsF0] at hd
  simp only [getKey] at hd
  constructor
  · rw [htd]
    simp [dictGet, habs]
  · intro r1 hr1
    obtain ⟨p1, hp1, hdur⟩ := rowOneWay_duration entry r1 hr1
    obtain rfl : p1 = p := Option.some.inj (hp1.symm.trans hp)
    rw [hdur]
    simp [dictGet, habs, hd]

/-- Witness for C4: entry B (no `total_duration`, segment duration 125)
yields a null `total_duration_min` in the round-trip row while the
one-way row for the same entry gets `duration_min = 125`. -/
theorem claim4_roundtrip_no_fallback_witness :
    rtRowB.total_duration_min = PyVal.null ∧ rowB.duration_min = PyVal.num 125 :=
  ⟨(claim4_roundtrip_no_fallback (.str "") entryB segAB rtRowB (PyVal.num 125)
      rfl rfl rfl rfl).1,
   (claim4_roundtrip_no_fallback (.str "") entryB segAB rtRowB (PyVal.num 125)
      rfl rfl rfl rfl).2 rowB rfl⟩

/-- C10: when the `total_duration` key is present but bound to null, the
one-way `duration_min` is null — the segment fallback fires only for an
absent key, not for a present null value. -/
theorem claim10_null_total_duration (entry seg : PyVal) (row : OneWayRow) (d : PyVal)
    (hrow : rowOneWay entry = some row) (hseg : firstSeg entry = some seg)
    (hnull : getKey entry "total_duration" = some PyVal.null)
    (hd : getKey seg "duration" = some d) :
    row.duration_min = PyVal.null := by
  obtain ⟨p, hp, hdur⟩ := rowOneWay_duration entry row hrow
  obtain ⟨heF, seg0, hseg0, hsF0⟩ := entryParts_inv entry p hp
  rw [heF] at hnull
  simp only [getKey] at hnull
  rw [hdur]
  simp [dictGet, hnull]

/-- Witness for C10: `total_duration` bound to null with segment
duration 125 yields a null `duration_min`, not 125. -/
theorem claim10_null_total_duration_witness : rowNull.duration_min = PyVal.null :=
  claim10_null_total_duration entryNull segAB rowNull (PyVal.num 125) rfl rfl rfl rfl

theorem lookup_setKey (d : Doc) (k : String) (v : PyVal) :
    (setKey d k v).lookup k = some v := by
  induction d with
  | nil => simp [setKey, List.lookup]
  | cons kv t ih =>
      obtain ⟨k1, v1⟩ := kv
      by_cases h : k1 = k
      · simp [setKey, h, List.lookup]
      · simp only [setKey, if_neg h, List.lookup]
        have : (k == k1) = false := by
          simp [beq_iff_eq]
          exact fun he => h he.symm
        rw [this]
        exact ih

theorem process_roundtrip_rows_from (doc : Doc) (rows : List RoundTripRow)
    (h : process_roundtrip_data doc = some rows) :
    ∀ r ∈ rows, ∃ e, rowRoundTrip (fetchedAtOf doc) e = some r := by
  unfold process_roundtrip_data at h
  cases h1 : pyConcat ((doc.lookup "best_flights").getD (.list []))
      ((doc.lookup "other_flights").getD (.list [])) with
  | none => rw [h1, Option.none_bind] at h; exact Option.noConfusion h
  | some all =>
      rw [h1, Option.some_bind] at h
      cases h2 : pyIterate all with
      | none => rw [h2, Option.none_bind] at h; exact Option.noConfusion h
      | some entries =>
          rw [h2, Option.some_bind] at h
          intro r hr
          obtain ⟨e, _, he⟩ := optTraverse_mem _ entries rows h r hr
          exact ⟨e, he⟩

/-- C9: the timestamp injected once at fetch time
(`results["_fetched_at"] = fetched_at`) is copied unchanged into every
record the round-trip normalizer derives from that document: each record's
`fetched_at` equals the injected string. -/
theorem claim9_fetched_at_propagated (results : Doc) (ts : String)
    (rows : List RoundTripRow)
    (h : process_roundtrip_data (injectFetchedAt results ts) = some rows) :
    ∀ r ∈ rows, r.fetched_at = PyVal.str ts := by
  intro r hr
  obtain ⟨e, he⟩ := process_roundtrip_rows_from _ rows h r hr
  obtain ⟨p, _, _, hfa⟩ :=
    rowRoundTrip_fields (fetchedAtOf (injectFetchedAt results ts)) e r he
  rw [hfa]
  simp [fetchedAtOf, injectFetchedAt, lookup_setKey]

/-- Witness for C9: injecting a concrete timestamp into the sample
document and normalizing gives a first record carrying that timestamp. -/
theorem claim9_fetched_at_propagated_witness : rtRowW0.fetched_at = PyVal.str tsW :=
  claim9_fetched_at_propagated docABC tsW rtRowsW rfl rtRowW0 (List.Mem.head _)

theorem mem_oneWayQueryTuples {cities : List String} {departs : List FlightDate}
    {t : String × String × FlightDate}
    (ht : t ∈ oneWayQueryTuples cities departs) :
    t.1 ∈ cities ∧ t.2.1 ∈ cities ∧ t.1 ≠ t.2.1 ∧ t.2.2 ∈ departs := by
  simp only [oneWayQueryTuples, List.mem_flatMap] at ht
  obtain ⟨o, ho, d, hd, ht⟩ := ht
  by_cases h : o = d
  · simp [h] at ht
  · rw [if_neg h] at ht
    simp only [List.mem_map] at ht
    obtain ⟨dd, hdd, heq⟩ := ht
    obtain rfl := heq.symm
    exact ⟨ho, hd, h, hdd⟩

theorem mem_roundTripQueryTuples {cities : List String} {departs rets : List FlightDate}
    {t : String × String × FlightDate × FlightDate}
    (ht : t ∈ roundTripQueryTuples cities departs rets) :
    t.1 ∈ cities ∧ t.2.1 ∈ cities ∧ t.1 ≠ t.2.1 ∧
    t.2.2.1 ∈ departs ∧ t.2.2.2 ∈ rets ∧ t.2.2.1 < t.2.2.2 := by
  simp only [roundTripQueryTuples, List.mem_flatMap] at ht
  obtain ⟨o, ho, d, hd, ht⟩ := ht
  by_cases h : o = d
  · simp [h] at ht
  · rw [if_neg h] at ht
    simp only [List.mem_flatMap, List.mem_filterMap] at ht
    obtain ⟨dd, hdd, rd, hrd, hsome⟩ := ht
    by_cases h2 : rd ≤ dd
    · rw [if_pos h2] at hsome
      exact Option.noConfusion hsome
    · rw [if_neg h2] at hsome
      obtain rfl := Option.some.inj hsome
      exact ⟨ho, hd, h, hdd, hrd, Nat.lt_of_not_le h2⟩

/-- C5: neither enumeration mode emits a tuple whose origin equals its
destination — the `from_city == to_city` guard skips every self-pair. -/
theorem claim5_no_self_pairs (cities : List String) (departs rets : List FlightDate) :
    (∀ t ∈ oneWayQueryTuples cities departs, t.1 ≠ t.2.1) ∧
    (∀ t ∈ roundTripQueryTuples cities departs rets, t.1 ≠ t.2.1) :=
  ⟨fun _ ht => (mem_oneWayQueryTuples ht).2.2.1,
   fun _ ht => (mem_roundTripQueryTuples ht).2.2.1⟩

/-- Witness for C5: emitted tuples of a concrete sweep have distinct
origin and destination. -/
theorem claim5_no_self_pairs_witness :
    ("DEL" : String) ≠ "BOM" ∧ ("BOM" : String) ≠ "DEL" :=
  ⟨(claim5_no_self_pairs ["DEL", "BOM"] [0] [1]).1 ("DEL", "BOM", 0) (by decide),
   (claim5_no_self_pairs ["DEL", "BOM"] [0] [1]).2 ("BOM", "DEL", 0, 1) (by decide)⟩

/-- C6: every emitted round-trip tuple has `return_date > outbound_date`
strictly; tuples failing the check are skipped by a bare `continue`, an
omission with no error channel (the enumerator is a total function into a
plain list, with no warning output). -/
theorem claim6_strict_date_order (cities : List String) (departs rets : List FlightDate) :
    ∀ t ∈ roundTripQueryTuples cities departs rets, t.2.2.1 < t.2.2.2 :=
  fun _ ht => (mem_roundTripQueryTuples ht).2.2.2.2.2

/-- Witness for C6 at a concrete sweep: the emitted tuple has outbound
date 0 strictly before return date 1. -/
theorem claim6_strict_date_order_witness : (0 : FlightDate) < 1 :=
  claim6_strict_date_order ["DEL", "BOM"] [0] [0, 1] ("DEL", "BOM", 0, 1) (by decide)

theorem filterMap_ret (o d : String) (dd : FlightDate) (rets : List FlightDate) :
    (rets.filterMap fun rd => if rd ≤ dd then Option.none else some (o, d, dd, rd)) =
    (rets.filter fun rd => decide (dd < rd)).map fun rd => (o, d, dd, rd) := by
  induction rets with
  | nil => rfl
  | cons rd t ih =>
      by_cases h : rd ≤ dd
      · have h2 : ¬ dd < rd := Nat.not_lt.mpr h
        simp [List.filterMap_cons, List.filter_cons, h, h2, ih]
      · have h2 : dd < rd := Nat.lt_of_not_le h
        simp [List.filterMap_cons, List.filter_cons, h, h2, ih]

theorem sum_map_const (l : List α) (c : Nat) : (l.map fun _ => c).sum = l.length * c := by
  induction l with
  | nil => simp
  | cons a t ih => simp [ih, Nat.succ_mul, Nat.add_comm]

theorem sum_ite_self_zero (l : List String) (o : String) (c : Nat)
    (hnd : l.Nodup) (ho : o ∈ l) :
    (l.map fun d => if o = d then 0 else c).sum = (l.length - 1) * c := by
  induction l with
  | nil => cases ho
  | cons a t ih =>
      rw [List.nodup_cons] at hnd
      obtain ⟨ha, hndt⟩ := hnd
      by_cases h : o = a
      · subst h
        have hmap : (t.map fun d => if o = d then 0 else c) = t.map fun _ => c := by
          apply List.map_congr_left
          intro d hd
          have hne : o ≠ d := fun he => ha (he ▸ hd)
          simp [hne]
        simp [hmap, sum_map_const]
      · have hot : o ∈ t := by
          cases ho with
          | head => exact absurd rfl h
          | tail _ h2 => exact h2
        simp only [List.map_cons, List.sum_cons, if_neg h]
        rw [ih hndt hot]
        have h1 : 1 ≤ t.length := List.length_pos.mpr (List.ne_nil_of_mem hot)
        obtain ⟨n, hn⟩ : ∃ n, t.length = n + 1 := ⟨t.length - 1, by omega⟩
        simp [hn, Nat.succ_mul, Nat.add_comm]

theorem rt_length_eq (cities : List String) (departs rets : List FlightDate)
    (hc : cities.Nodup) :
    (roundTripQueryTuples cities departs rets).length =
    cities.length * (cities.length - 1) *
      (departs.map fun dd => (rets.filter fun rd => decide (dd < rd)).length).sum := by
  unfold roundTripQueryTuples
  rw [List.length_flatMap]
  simp only [Function.comp_def]
  have step1 : (cities.map fun o =>
      (cities.flatMap fun d =>
        if o = d then []
        else departs.flatMap fun dd =>
          rets.filterMap fun rd =>
            if rd ≤ dd then Option.none else some (o, d, dd, rd)).length) =
      cities.map fun _ => (cities.length - 1) *
        (departs.map fun dd => (rets.filter fun rd => decide (dd < rd)).length).sum := by
    apply List.map_congr_left
    intro o ho
    rw [List.length_flatMap]
    simp only [Function.comp_def]
    have step2 : (cities.map fun d =>
        (if o = d then []
         else departs.flatMap fun dd =>
           rets.filterMap fun rd =>
             if rd ≤ dd then Option.none else some (o, d, dd, rd)).length) =
        cities.map fun d => if o = d then 0 else
          (departs.map fun dd => (rets.filter fun rd => decide (dd < rd)).length).sum := by
      apply List.map_congr_left
      intro d _
      by_cases h : o = d
      · simp [h]
      · simp only [if_neg h]
        rw [List.length_flatMap]
        simp only [Function.comp_def, filterMap_ret, List.length_map]
    rw [step2, sum_ite_self_zero cities o _ hc ho]
  rw [step1, sum_map_const, ← Nat.mul_assoc]

theorem sum_map_eq_iff (l : List α) (f : α → Nat) (c : Nat)
    (hle : ∀ x ∈ l, f x ≤ c) :
    ((l.map f).sum = l.length * c ↔ ∀ x ∈ l, f x = c) := by
  induction l with
  | nil => simp
  | cons a t ih =>
      simp only [List.map_cons, List.sum_cons, List.length_cons]
      have h1 : f a ≤ c := hle a (List.mem_cons_self a t)
      have h2 : (t.map f).sum ≤ t.length * c := by
        calc (t.map f).sum ≤ (t.map fun _ => c).sum :=
              List.sum_le_sum fun x hx => hle x (List.mem_cons_of_mem a hx)
        _ = t.length * c := sum_map_const t c
      have ih2 := ih fun x hx => hle x (List.mem_cons_of_mem a hx)
      rw [Nat.succ_mul]
      constructor
      · intro he
        have hsplit : f a = c ∧ (t.map f).sum = t.length * c := by
          generalize hX : t.length * c = X at he h2
          omega
        intro x hx
        cases hx with
        | head => exact hsplit.1
        | tail _ hx2 => exact (ih2.mp hsplit.2) x hx2
      · intro hall
        have hfa : f a = c := hall a (List.mem_cons_self a t)
        have hrest : (t.map f).sum = t.length * c :=
          ih2.mpr fun x hx => hall x (List.mem_cons_of_mem a hx)
        omega

theorem filter_length_eq_iff (l : List FlightDate) (p : FlightDate → Bool) :
    ((l.filter p).length = l.length ↔ ∀ x ∈ l, p x = true) := by
  constructor
  · intro h
    have hs := List.filter_sublist (p := p) l
    have heq := hs.eq_of_length h
    intro x hx
    rw [← heq] at hx
    exact List.of_mem_filter hx
  · intro h
    rw [List.filter_eq_self.mpr h]

theorem two_le_length_of_pair {l : List String}
    (h : ∃ o ∈ l, ∃ d ∈ l, o ≠ d) : 2 ≤ l.length := by
  obtain ⟨o, ho, d, hd, hne⟩ := h
  cases l with
  | nil => cases ho
  | cons a t =>
      cases t with
      | nil =>
          simp at ho hd
          exact absurd (ho.trans hd.symm) hne
      | cons b u => simp only [List.length_cons]; omega

theorem pair_of_two_le {l : List String} (hnd : l.Nodup) (h2 : 2 ≤ l.length) :
    ∃ o ∈ l, ∃ d ∈ l, o ≠ d := by
  cases l with
  | nil => simp at h2
  | cons a t =>
      cases t with
      | nil => simp at h2
      | cons b u =>
          rw [List.nodup_cons] at hnd
          have hab : a ≠ b := fun he => hnd.1 (he ▸ List.mem_cons_self b u)
          exact ⟨a, List.mem_cons_self _ _, b,
            List.mem_cons_of_mem a (List.mem_cons_self b u), hab⟩

theorem product_cons_eq (a : α) (l1 : List α) (l2 : List β) :
    (a :: l1).product l2 = (l2.map fun b => (a, b)) ++ l1.product l2 := rfl

theorem lvl3_filterMap_eq (o d : String) (hne : o ≠ d) (dd : FlightDate)
    (rets : List FlightDate) :
    (rets.filterMap fun rd => if rd ≤ dd then Option.none else some (o, d, dd, rd)) =
    (rets.map fun rd => (o, d, dd, rd)).filter tupleKeep := by
  induction rets with
  | nil => rfl
  | cons rd t ih =>
      have hkeep : tupleKeep (o, d, dd, rd) = decide (dd < rd) := by
        simp [tupleKeep, hne]
      by_cases h : rd ≤ dd
      · have h2 : ¬ dd < rd := Nat.not_lt.mpr h
        simp [List.filterMap_cons, List.filter_cons, h, hkeep, h2, ih]
      · have h2 : dd < rd := Nat.lt_of_not_le h
        simp [List.filterMap_cons, List.filter_cons, h, hkeep, h2, ih]

theorem lvl2_departs_eq (o d : String) (hne : o ≠ d) (departs rets : List FlightDate) :
    (departs.flatMap fun dd =>
      rets.filterMap fun rd => if rd ≤ dd then Option.none else some (o, d, dd, rd)) =
    ((departs.product rets).map fun z => (o, d, z)).filter tupleKeep := by
  induction departs with
  | nil => rfl
  | cons dd t ih =>
      rw [List.flatMap_cons, product_cons_eq, List.map_append, List.filter_append, ← ih]
      congr 1
      rw [List.map_map]
      have hcomp : ((fun z : FlightDate × FlightDate => (o, d, z)) ∘ fun b => (dd, b)) =
          fun rd : FlightDate => (o, d, dd, rd) := rfl
      rw [hcomp, lvl3_filterMap_eq o d hne dd rets]

theorem lvl1_inner_eq (o : String) (cs : List String) (departs rets : List FlightDate) :
    (cs.flatMap fun d =>
      if o = d then []
      else departs.flatMap fun dd =>
        rets.filterMap fun rd => if rd ≤ dd then Option.none else some (o, d, dd, rd)) =
    ((cs.product (departs.product rets)).map fun y => (o, y)).filter tupleKeep := by
  induction cs with
  | nil => rfl
  | cons d t ih =>
      rw [List.flatMap_cons, product_cons_eq, List.map_append, List.filter_append, ← ih]
      congr 1
      rw [List.map_map]
      have hcomp : ((fun y : String × FlightDate × FlightDate => (o, y)) ∘ fun b => (d, b)) =
          fun z : FlightDate × FlightDate => (o, d, z) := rfl
      rw [hcomp]
      by_cases h : o = d
      · subst h
        rw [if_pos rfl]
        have hnil : ∀ X : List (FlightDate × FlightDate),
            ((X.map fun z => (o, o, z)).filter tupleKeep) = [] := by
          intro X
          induction X with
          | nil => rfl
          | cons z u ihX =>
              have : tupleKeep (o, o, z) = false := by simp [tupleKeep]
              simp [List.filter_cons, this, ihX]
        rw [hnil]
      · rw [if_neg h, lvl2_departs_eq o d h departs rets]

theorem lvl0_outer_eq (outer cs : List String) (departs rets : List FlightDate) :
    (outer.flatMap fun o => cs.flatMap fun d =>
      if o = d then []
      else departs.flatMap fun dd =>
        rets.filterMap fun rd => if rd ≤ dd then Option.none else some (o, d, dd, rd)) =
    (outer.product (cs.product (departs.product rets))).filter tupleKeep := by
  induction outer with
  | nil => rfl
  | cons o t ih =>
      rw [List.flatMap_cons, product_cons_eq, List.filter_append, ← ih]
      congr 1
      exact lvl1_inner_eq o cs departs rets

theorem rt_eq_filter_cartesian (cities : List String) (departs rets : List FlightDate) :
    roundTripQueryTuples cities departs rets =
    (cartesianNesting cities departs rets).filter tupleKeep := by
  unfold roundTripQueryTuples cartesianNesting
  exact lvl0_outer_eq cities cities departs rets

theorem rt_nodup (cities : List String) (departs rets : List FlightDate)
    (hc : cities.Nodup) (hdep : departs.Nodup) (hret : rets.Nodup) :
    (roundTripQueryTuples cities departs rets).Nodup := by
  rw [rt_eq_filter_cartesian]
  unfold cartesianNesting
  exact (hc.product (hc.product (hdep.product hret))).filter _

/-- C7 counterexample: the claim quantifies over arbitrary date lists, but
with the return-date list `[1, 1]` the enumerator emits the same tuple
twice, so the no-repetition part fails as stated. -/
theorem claim7_counterexample :
    ¬ (roundTripQueryTuples ["DEL", "BOM"] [0] [1, 1]).Nodup := by decide

/-- C7 (amended): for a duplicate-free city set and duplicate-free date
lists, the round-trip enumerator emits at most
`|C| * (|C|-1) * |D_out| * |D_ret|` tuples, with equality exactly when no
enumerated (outbound, return) pair is filtered by the strict
date-ordering rule (that is, unless some ordered city pair exists and
some date pair has `return <= outbound`); no emitted tuple is repeated;
and the output is the spec's Cartesian product in nesting order (origin,
destination, outbound date, return date) filtered by the two rules. -/
theorem claim7_cartesian_count_amended (cities : List String)
    (departs rets : List FlightDate)
    (hc : cities.Nodup) (hdep : departs.Nodup) (hret : rets.Nodup) :
    (roundTripQueryTuples cities departs rets).length ≤
      cities.length * (cities.length - 1) * departs.length * rets.length ∧
    ((roundTripQueryTuples cities departs rets).length =
      cities.length * (cities.length - 1) * departs.length * rets.length ↔
      ¬ ((∃ o ∈ cities, ∃ d ∈ cities, o ≠ d) ∧
         ∃ dd ∈ departs, ∃ rd ∈ rets, rd ≤ dd)) ∧
    (roundTripQueryTuples cities departs rets).Nodup ∧
    roundTripQueryTuples cities departs rets =
      (cartesianNesting cities departs rets).filter tupleKeep := by
  refine ⟨?_, ?_, rt_nodup cities departs rets hc hdep hret,
    rt_eq_filter_cartesian cities departs rets⟩
  · rw [rt_length_eq cities departs rets hc]
    have hS : (departs.map fun dd =>
        (rets.filter fun rd => decide (dd < rd)).length).sum ≤
        departs.length * rets.length := by
      calc (departs.map fun dd =>
            (rets.filter fun rd => decide (dd < rd)).length).sum
          ≤ (departs.map fun _ => rets.length).sum :=
            List.sum_le_sum fun dd _ => List.length_filter_le _ _
        _ = departs.length * rets.length := sum_map_const _ _
    have h2 : cities.length * (cities.length - 1) *
        (departs.map fun dd => (rets.filter fun rd => decide (dd < rd)).length).sum ≤
        cities.length * (cities.length - 1) * (departs.length * rets.length) :=
      Nat.mul_le_mul (Nat.le_refl _) hS
    have h3 : cities.length * (cities.length - 1) * (departs.length * rets.length) =
        cities.length * (cities.length - 1) * departs.length * rets.length := by
      ring
    exact le_of_le_of_eq h2 h3
  · rw [rt_length_eq cities departs rets hc,
      Nat.mul_assoc (cities.length * (cities.length - 1)) departs.length rets.length]
    by_cases hA : cities.length * (cities.length - 1) = 0
    · rw [hA]
      have hno : ¬ ∃ o ∈ cities, ∃ d ∈ cities, o ≠ d := by
        intro hp
        have h2 := two_le_length_of_pair hp
        rcases Nat.mul_eq_zero.mp hA with h | h <;> omega
      simp [Nat.zero_mul, hno]
    · have hApos : 0 < cities.length * (cities.length - 1) := Nat.pos_of_ne_zero hA
      rw [Nat.mul_left_cancel_iff hApos]
      have hpair : ∃ o ∈ cities, ∃ d ∈ cities, o ≠ d := by
        apply pair_of_two_le hc
        by_contra h2
        push_neg at h2
        have : cities.length = 0 ∨ cities.length = 1 := by omega
        rcases this with h | h <;> simp [h] at hA
      rw [sum_map_eq_iff _ _ _ fun dd _ => List.length_filter_le _ _]
      constructor
      · intro hall
        rintro ⟨_, dd, hdd, rd, hrd, hle⟩
        have hkeep := (filter_length_eq_iff rets _).mp (hall dd hdd) rd hrd
        simp only [decide_eq_true_eq] at hkeep
        exact absurd hkeep (Nat.not_lt.mpr hle)
      · intro hnot dd hdd
        rw [filter_length_eq_iff]
        intro rd hrd
        simp only [decide_eq_true_eq]
        by_contra hlt
        exact hnot ⟨hpair, dd, hdd, rd, hrd, Nat.le_of_not_lt hlt⟩

/-- Witness for C7 (amended) on a concrete sweep with distinct cities and
distinct dates: the bound holds and no tuple repeats. -/
theorem claim7_cartesian_count_amended_witness :
    (roundTripQueryTuples ["DEL", "BOM"] [0] [1, 2]).length ≤
      (["DEL", "BOM"] : List String).length *
        ((["DEL", "BOM"] : List String).length - 1) *
        ([0] : List FlightDate).length * ([1, 2] : List FlightDate).length ∧
    (roundTripQueryTuples ["DEL", "BOM"] [0] [1, 2]).Nodup :=
  ⟨(claim7_cartesian_count_amended ["DEL", "BOM"] [0] [1, 2]
      (by decide) (by decide) (by decide)).1,
   (claim7_cartesian_count_amended ["DEL", "BOM"] [0] [1, 2]
      (by decide) (by decide) (by decide)).2.2.1⟩

end FlightPlanner
